import Mathlib

/-!
Verification development for the boltz-service repository.

This file gives a shallow embedding, in Lean 4, of the resource-admission,
job-lifecycle and computation-cache layer of the service:

* `Boltz.Seq`       — `utils/sequence.py` (`validate_sequence`)
* `Boltz.Cache`     — `utils/redis_cache.py` and the cache consultation in
                      `services/msa.py` (`MSAService._run_hhblits`)
* `Boltz.Db`        — `utils/database_config.py` (`BFDConfig.from_env`,
                      `DatabaseConfig.from_env`) and
                      `utils/db_manager.py` (`check_database_health`,
                      `cleanup_cache`)
* `Boltz.Res`       — `utils/resources.py` (`ResourceManager.acquire_device`
                      / `release_device`), plus a labelled transition system
                      for the per-device lock discipline
* `Boltz.Inference` — `services/inference.py` (`PredictStructure`,
                      `CancelJob`)
* `Boltz.Training`  — `services/training.py` (`StartTraining`, `CancelJob`)

Python dictionaries are embedded as association lists with left-most-binding
semantics, Python `None`/values as `Option`, machine floats that only ever
meet integral thresholds as `ℚ`, and the filesystem / environment as explicit
predicates threaded through the definitions.  Uncaught Python exceptions are
explicit constructors of the result types.
-/

namespace Boltz

/-! ## Association-list embedding of Python `dict` -/

/-- Lookup in a Python dict embedded as an association list (left binding). -/
def dictGet {α : Type} (m : List (String × α)) (k : String) : Option α :=
  match m with
  | [] => none
  | (k₀, v₀) :: rest => if k₀ = k then some v₀ else dictGet rest k

/-- Python `d[k] = v`: bind `k` to `v`, shadowing any earlier binding. -/
def dictSet {α : Type} (m : List (String × α)) (k : String) (v : α) :
    List (String × α) :=
  (k, v) :: m

/-- Python `k in d`. -/
def dictMem {α : Type} (m : List (String × α)) (k : String) : Bool :=
  (dictGet m k).isSome

namespace Seq

/-! ## `utils/sequence.py` -/

/-- The twenty standard amino-acid letters (`valid_chars` in the source). -/
def validChars : List Char :=
  ['A', 'C', 'D', 'E', 'F', 'G', 'H', 'I', 'K', 'L',
   'M', 'N', 'P', 'Q', 'R', 'S', 'T', 'V', 'W', 'Y']

/-- Python `str.upper` maps each character independently to its full Unicode
uppercase expansion, which may be several characters long (`'ß'.upper() ==
"SS"`, `'ﬅ'.upper() == "ST"`).  The embedding records that expansion exactly
where it can land inside the service's alphabet: the 26 ASCII lowercase
letters, and the ten non-ASCII characters whose full uppercase expansion
consists solely of letters of `valid_chars` (sharp s, dotless i, long s and
the Latin f- and st-ligatures — the complete list over every Unicode scalar
value, enumerated exhaustively against CPython).  Every other character is
kept unchanged; that preserves the value of the subset test below, because
such a character's true uppercase expansion never consists solely of
`valid_chars` letters, so both the model and the source reject it. -/
def pyUpperChar (c : Char) : List Char :=
  if c = 'a' then ['A']
  else if c = 'b' then ['B']
  else if c = 'c' then ['C']
  else if c = 'd' then ['D']
  else if c = 'e' then ['E']
  else if c = 'f' then ['F']
  else if c = 'g' then ['G']
  else if c = 'h' then ['H']
  else if c = 'i' then ['I']
  else if c = 'j' then ['J']
  else if c = 'k' then ['K']
  else if c = 'l' then ['L']
  else if c = 'm' then ['M']
  else if c = 'n' then ['N']
  else if c = 'o' then ['O']
  else if c = 'p' then ['P']
  else if c = 'q' then ['Q']
  else if c = 'r' then ['R']
  else if c = 's' then ['S']
  else if c = 't' then ['T']
  else if c = 'u' then ['U']
  else if c = 'v' then ['V']
  else if c = 'w' then ['W']
  else if c = 'x' then ['X']
  else if c = 'y' then ['Y']
  else if c = 'z' then ['Z']
  else if c = 'ß' then ['S', 'S']
  else if c = 'ı' then ['I']
  else if c = 'ſ' then ['S']
  else if c = 'ﬀ' then ['F', 'F']
  else if c = 'ﬁ' then ['F', 'I']
  else if c = 'ﬂ' then ['F', 'L']
  else if c = 'ﬃ' then ['F', 'F', 'I']
  else if c = 'ﬄ' then ['F', 'F', 'L']
  else if c = 'ﬅ' then ['S', 'T']
  else if c = 'ﬆ' then ['S', 'T']
  else [c]

/-- The characters on which `pyUpperChar` acts nontrivially (the 26 ASCII
lowercase letters followed by the ten special expansions). -/
def mappedChars : List Char :=
  ['a', 'b', 'c', 'd', 'e', 'f', 'g', 'h', 'i', 'j', 'k', 'l', 'm',
   'n', 'o', 'p', 'q', 'r', 's', 't', 'u', 'v', 'w', 'x', 'y', 'z',
   'ß', 'ı', 'ſ', 'ﬀ', 'ﬁ', 'ﬂ', 'ﬃ', 'ﬄ', 'ﬅ', 'ﬆ']

/-- The ASCII lowercase forms of the twenty amino-acid letters. -/
def validLowerChars : List Char :=
  ['a', 'c', 'd', 'e', 'f', 'g', 'h', 'i', 'k', 'l',
   'm', 'n', 'p', 'q', 'r', 's', 't', 'v', 'w', 'y']

/-- The ten non-ASCII characters whose full Unicode uppercase expansion
consists solely of letters of `valid_chars`, so that `validate_sequence`
accepts them. -/
def upperExpandChars : List Char :=
  ['ß', 'ı', 'ſ', 'ﬀ', 'ﬁ', 'ﬂ', 'ﬃ', 'ﬄ', 'ﬅ', 'ﬆ']

/-- `validate_sequence` from `utils/sequence.py`: reject the empty string,
reject length `> 2000`, then require `set(sequence.upper())` to be a subset
of `valid_chars` — `sequence.upper()` being the concatenation of the
per-character uppercase expansions. -/
def validateSequence (s : List Char) : Bool :=
  if s.isEmpty then false
  else if s.length > 2000 then false
  else (s.flatMap pyUpperChar).all (fun c => c ∈ validChars)

end Seq

namespace Cache

/-! ## `utils/redis_cache.py` and the cache consultation in `services/msa.py` -/

/-- The state of the redis key space, embedded as a string-to-string dict. -/
abbrev RedisMap : Type := List (String × String)

/-- `RedisCache.get_msa`: read key `"msa:" ++ sequence`. -/
def getMsa (m : RedisMap) (sequence : String) : Option String :=
  dictGet m ("msa:" ++ sequence)

/-- `RedisCache.set_msa`: write `path` under key `"msa:" ++ sequence`
(the expiry argument is wall-clock behaviour, outside this state model). -/
def setMsa (m : RedisMap) (sequence : String) (msaPath : String) : RedisMap :=
  dictSet m ("msa:" ++ sequence) msaPath

/-- The cache consultation at the top of `MSAService._run_hhblits`: on a
redis hit the path is returned only when it is truthy and the file still
exists on disk (`if cached_path and os.path.exists(cached_path)`); any other
outcome falls through to the external tool, i.e. is a miss. -/
def lookupMsa (m : RedisMap) (fsExists : String → Bool) (sequence : String) :
    Option String :=
  match getMsa m sequence with
  | some p => if p ≠ "" ∧ fsExists p then some p else none
  | none => none

/-- Outcome of one redis `get` round-trip against the backend: either a value
(`none` meaning the key is absent) or a raised backend exception. -/
inductive GetOutcome
  | val (v : Option String)
  | raised (msg : String)
deriving DecidableEq, Repr

/-- Outcome of one redis `set` round-trip against the backend. -/
inductive SetOutcome
  | done
  | raised (msg : String)
deriving DecidableEq, Repr

/-- Behaviour of a connected redis backend for the two round-trips
`_run_hhblits` performs: the reply to `get_msa` and to `set_msa`. -/
structure Backend where
  onGet : GetOutcome
  onSet : SetOutcome
deriving DecidableEq, Repr

/-- How the initial connection attempt in `get_redis_cache` goes:
`REDIS_HOST` unset, a `redis.ConnectionError` raised by the constructor or
the `ping`, or a live connection. -/
inductive ConnectAttempt
  | noHost
  | connError
  | connected (b : Backend)
deriving DecidableEq, Repr

/-- `get_redis_cache` from `utils/redis_cache.py`: returns no cache when the
host is unconfigured, absorbs a `redis.ConnectionError` raised while
connecting or pinging (returning no cache), and otherwise hands back the live
connection. -/
def getRedisCache : ConnectAttempt → Option Backend
  | .noHost => none
  | .connError => none
  | .connected b => some b

end Cache

namespace Msa

/-! ## `services/msa.py` -/

/-- Result of one call to `MSAService._run_hhblits`, with the effects the
specification cares about made explicit. -/
inductive RunResult
  | cachedCopy (path : String)   -- returned early with a cached artifact
  | toolCompleted (path : String) -- ran the external tool successfully
  | raised (msg : String)        -- an exception propagated to the caller
deriving DecidableEq, Repr

/-- Whether a `RunResult` invoked the external tool. -/
def RunResult.ranTool : RunResult → Bool
  | .toolCompleted _ => true
  | _ => false

/-- The portion of `_run_hhblits` after the cache consultation: check the BFD
database unless `SKIP_BFD_CHECK` is set, run `hhblits`, raise on a non-zero
exit code, then (when a cache connection exists) register the result under
the sequence key.  `toolExit = 0` embeds a successful subprocess run. -/
def runTool (conn : Option Cache.Backend) (bfdOk : Bool) (toolExit : Nat)
    (outputPath : String) : RunResult :=
  if !bfdOk then .raised "BFD database not found"
  else if toolExit ≠ 0 then .raised "HHblits failed"
  else
    match conn with
    | some b =>
        match b.onSet with
        | .done => .toolCompleted outputPath
        | .raised m => .raised m
    | none => .toolCompleted outputPath

/-- `MSAService._run_hhblits`: consult `get_redis_cache`; on a hit whose file
still exists, copy it and return; otherwise fall through to the external
tool.  A backend exception during `get_msa` is not caught anywhere in the
function, so it propagates. -/
def runHhblits (attempt : Cache.ConnectAttempt) (fsExists : String → Bool)
    (bfdOk : Bool) (toolExit : Nat) (outputPath : String) : RunResult :=
  match Cache.getRedisCache attempt with
  | some b =>
      match b.onGet with
      | .raised m => .raised m
      | .val (some p) =>
          if p ≠ "" ∧ fsExists p then .cachedCopy outputPath
          else runTool (some b) bfdOk toolExit outputPath
      | .val none => runTool (some b) bfdOk toolExit outputPath
  | none => runTool none bfdOk toolExit outputPath

/-- Response wire shape of `GenerateMSA` (status plus the grpc code set on
the context, `none` when the handler leaves it untouched). -/
structure MsaResponse where
  ctxCode : Option String
  status : String
  resultPath : Option String
deriving DecidableEq, Repr

/-- Observable side effects of one `GenerateMSA` call. -/
structure MsaEffects where
  madeOutputDir : Bool
  invokedTool : Bool
deriving DecidableEq, Repr

/-- Whether a `_run_hhblits` call reaches the `hhblits` subprocess
invocation: it does not when a cached artifact is returned early, when the
`get_msa` round-trip raises, or when the BFD check raises `ValueError`
before spawning the process. -/
def hhblitsInvoked (attempt : Cache.ConnectAttempt) (fsExists : String → Bool)
    (bfdOk : Bool) : Bool :=
  match Cache.getRedisCache attempt with
  | some b =>
      match b.onGet with
      | .raised _ => false
      | .val (some p) => if p ≠ "" ∧ fsExists p then false else bfdOk
      | .val none => bfdOk
  | none => bfdOk

/-- `MSAService.GenerateMSA`: validate the sequence first and reject with
`INVALID_ARGUMENT` before creating the output directory or touching the
external tool; otherwise create the output directory, run `_run_hhblits`,
and map a propagated exception to a `"failed"` response (caught by the
enclosing `except Exception`). -/
def generateMSA (sequence : List Char) (attempt : Cache.ConnectAttempt)
    (fsExists : String → Bool) (bfdOk : Bool) (toolExit : Nat)
    (outputPath : String) : MsaResponse × MsaEffects :=
  if !Seq.validateSequence sequence then
    (⟨some "INVALID_ARGUMENT", "", none⟩, ⟨false, false⟩)
  else
    let invoked := hhblitsInvoked attempt fsExists bfdOk
    match runHhblits attempt fsExists bfdOk toolExit outputPath with
    | .cachedCopy p => (⟨none, "completed", some p⟩, ⟨true, invoked⟩)
    | .toolCompleted p => (⟨none, "completed", some p⟩, ⟨true, invoked⟩)
    | .raised _ => (⟨none, "failed", none⟩, ⟨true, invoked⟩)

end Msa

namespace Db

/-! ## `utils/database_config.py` and `utils/db_manager.py` -/

/-- The ambient process environment and filesystem as the configuration code
sees them: `getenv` embeds `os.getenv`, `fsExists` embeds
`os.path.exists` / `Path.exists`. -/
structure Env where
  getenv : String → Option String
  fsExists : String → Bool

/-- The fixed BFD shard basename from `BFDConfig.from_env`. -/
def bfdBase : String := "bfd_metaclust_clu_complete_id30_c90_final_seq.sorted_opt"

/-- The six required BFD shard files, keyed by field name, in source
(dataclass) order. -/
def bfdRequiredFiles : List (String × String) :=
  [("ffindex", bfdBase ++ "_a3m.ffindex"),
   ("ffdata", bfdBase ++ "_a3m.ffdata"),
   ("cs219_index", bfdBase ++ "_cs219.ffindex"),
   ("cs219_data", bfdBase ++ "_cs219.ffdata"),
   ("hhm_index", bfdBase ++ "_hhm.ffindex"),
   ("hhm_data", bfdBase ++ "_hhm.ffdata")]

/-- `BFDConfig`: the database directory plus the six shard paths. -/
structure BFDConfig where
  db_path : String
  ffindex : String
  ffdata : String
  cs219_index : String
  cs219_data : String
  hhm_index : String
  hhm_data : String
deriving DecidableEq, Repr

/-- The seven `(field name, path)` pairs of `dataclasses.asdict(config.bfd)`,
in dataclass field order (`db_path` first). -/
def BFDConfig.asdict (c : BFDConfig) : List (String × String) :=
  [("db_path", c.db_path), ("ffindex", c.ffindex), ("ffdata", c.ffdata),
   ("cs219_index", c.cs219_index), ("cs219_data", c.cs219_data),
   ("hhm_index", c.hhm_index), ("hhm_data", c.hhm_data)]

/-- `BFDConfig.from_env`: `None` when `BOLTZ_BFD_PATH` is unset or empty,
when the directory does not exist, or when any of the six required shard
files is absent; otherwise the configuration with all seven paths.  (The
`expected_md5` table in the source is built but never consulted.) -/
def bfdFromEnv (env : Env) : Option BFDConfig :=
  match env.getenv "BOLTZ_BFD_PATH" with
  | none => none
  | some dbPath =>
    if dbPath = "" then none
    else if !env.fsExists dbPath then none
    else
      let shard := fun (fname : String) => dbPath ++ "/" ++ fname
      if (bfdRequiredFiles.all fun nf => env.fsExists (shard nf.2)) then
        some ⟨dbPath,
          shard (bfdBase ++ "_a3m.ffindex"), shard (bfdBase ++ "_a3m.ffdata"),
          shard (bfdBase ++ "_cs219.ffindex"), shard (bfdBase ++ "_cs219.ffdata"),
          shard (bfdBase ++ "_hhm.ffindex"), shard (bfdBase ++ "_hhm.ffdata")⟩
      else none

/-- `DatabaseConfig`: optional BFD block plus optional UniRef and taxonomy
paths. -/
structure DatabaseConfig where
  bfd : Option BFDConfig
  uniref_path : Option String
  taxonomy_path : Option String
deriving DecidableEq, Repr

/-- `DatabaseConfig.from_env`: assemble the three blocks from the
environment; an unset or empty variable yields `None` for its block
(`Path(uniref) if uniref else None`). -/
def databaseConfigFromEnv (env : Env) : DatabaseConfig :=
  let opt := fun (v : String) =>
    match env.getenv v with
    | none => none
    | some s => if s = "" then none else some s
  ⟨bfdFromEnv env, opt "BOLTZ_UNIREF_PATH", opt "BOLTZ_TAXONOMY_PATH"⟩

/-- `DatabaseManager.check_database_health`: rebuild the configuration from
the environment, then report a problem line for each configured path that no
longer exists — every `asdict` entry of the BFD block, then the UniRef path,
then the taxonomy path.  No checksum is ever recomputed. -/
def checkDatabaseHealth (env : Env) : List String :=
  let config := databaseConfigFromEnv env
  let bfdErrors :=
    match config.bfd with
    | none => []
    | some b => b.asdict.filterMap fun np =>
        if env.fsExists np.2 then none
        else some ("BFD " ++ np.1 ++ " not found: " ++ np.2)
  let unirefErrors :=
    match config.uniref_path with
    | none => []
    | some p => if env.fsExists p then [] else ["UniRef database not found: " ++ p]
  let taxonomyErrors :=
    match config.taxonomy_path with
    | none => []
    | some p => if env.fsExists p then [] else ["Taxonomy database not found: " ++ p]
  bfdErrors ++ unirefErrors ++ taxonomyErrors

/-- One file of the cache tree as `cleanup_cache` sees it: path, size in
bytes, last-modified time. -/
structure CacheFile where
  path : String
  size : Nat
  mtime : Nat
deriving DecidableEq, Repr

/-- Total size in bytes of a list of cache files. -/
def sizeSum (files : List CacheFile) : Nat :=
  (files.map CacheFile.size).sum

/-- Ascending last-modified-time order used by `files.sort(key=lambda x: x[2])`. -/
def mtimeLE (a b : CacheFile) : Bool :=
  a.mtime ≤ b.mtime

/-- The deletion loop of `cleanup_cache` on the happy path (every `unlink`
succeeds): walk the mtime-sorted list, deleting while the running total still
exceeds the budget; returns the surviving files. -/
def deleteOldest : List CacheFile → Nat → Nat → List CacheFile
  | [], _, _ => []
  | f :: rest, total, maxSize =>
    if total ≤ maxSize then f :: rest
    else deleteOldest rest (total - f.size) maxSize

/-- `DatabaseManager.cleanup_cache` on the happy path: sum the sizes of all
files under the cache directory and, only if the total exceeds `max_size`,
delete files in ascending mtime order until the total is within the budget.
Returns the files remaining on disk. -/
def cleanupCache (files : List CacheFile) (maxSize : Nat) : List CacheFile :=
  let total := sizeSum files
  if total > maxSize then
    deleteOldest (files.mergeSort mtimeLE) total maxSize
  else files

end Db

namespace Res

/-! ## `utils/resources.py` -/

/-- `ResourceStats`: the snapshot published by the monitor loop.  The Python
floats only ever meet integral thresholds here, so they are embedded as
rationals. -/
structure ResourceStats where
  cpu_percent : ℚ
  memory_percent : ℚ
  gpu_utilization : Option (List ℚ)
  gpu_memory_utilization : Option (List ℚ)
deriving DecidableEq, Repr

/-- Result of the pre-lock portion of `acquire_device`. -/
inductive Admission
  | proceed
  | exhausted (msg : String)
  | indexErr
deriving DecidableEq, Repr

/-- The system-memory test of `acquire_device`
(`if stats.memory_percent > 90`). -/
def memoryCheck (s : ResourceStats) : Admission :=
  if s.memory_percent > 90 then .exhausted "System memory is exhausted"
  else .proceed

/-- The admission portion of `ResourceManager.acquire_device`, everything
before the lock is touched: raise `ResourceExhaustedError` for an unknown
device; when a snapshot exists, raise if the configuration is `"gpu"`, the
snapshot's `gpu_utilization` list is truthy (non-`None` and non-empty) and
the device's entry exceeds 90 (an out-of-range index is an uncaught
`IndexError`), then raise if `memory_percent` exceeds 90; when no snapshot
has been taken yet (`stats` is `None`) the whole block is skipped. -/
def admissionCheck (cfgType : String) (knownDevices : List Nat)
    (stats : Option ResourceStats) (deviceId : Nat) : Admission :=
  if deviceId ∉ knownDevices then
    .exhausted ("Device " ++ toString deviceId ++ " not available")
  else
    match stats with
    | none => .proceed
    | some s =>
      match (if cfgType = "gpu" then s.gpu_utilization else none) with
      | some gu =>
        if gu.isEmpty then memoryCheck s
        else
          match gu.get? deviceId with
          | some u =>
              if u > 90 then .exhausted ("GPU " ++ toString deviceId ++ " is overloaded")
              else memoryCheck s
          | none => .indexErr
      | none => memoryCheck s

/-- Result of a whole `acquire_device` call. -/
inductive AcquireOutcome
  | acquired
  | exhausted (msg : String)
  | indexErr
deriving DecidableEq, Repr

/-- `ResourceManager.acquire_device` with the lock wait abstracted by
`lockGranted`: whether `asyncio.wait_for(lock.acquire(), timeout=5.0)`
obtained the lock before timing out.  The admission check runs first and a
rejection never reaches the lock. -/
def acquireDevice (cfgType : String) (knownDevices : List Nat)
    (stats : Option ResourceStats) (deviceId : Nat) (lockGranted : Bool) :
    AcquireOutcome :=
  match admissionCheck cfgType knownDevices stats deviceId with
  | .exhausted m => .exhausted m
  | .indexErr => .indexErr
  | .proceed =>
      if lockGranted then .acquired
      else .exhausted ("Timeout waiting for device " ++ toString deviceId)

/-! ### Transition system for the per-device lock discipline

One `asyncio.Lock` per configured device; a successful `acquire_device`
records the caller as a holder, `release_device` removes it.  `locked` is
the lock's internal flag; `holders` the multiset of outstanding grants. -/

/-- Global state of the device locks. -/
structure LockSys where
  known : List Nat
  locked : Nat → Bool
  holders : List (Nat × Nat)   -- (caller, device) grants outstanding

/-- Transition labels: a successful acquire or a release. -/
inductive LockLabel
  | acq (caller device : Nat)
  | rel (caller device : Nat)
deriving DecidableEq, Repr

/-- The step relation generated by `acquire_device` / `release_device`.  An
acquire succeeds only when the admission check passes (under whatever
snapshot the monitor currently publishes) and the device's lock is free; a
release requires the caller to actually hold the grant (the source's
contract: a caller that never acquired must not release). -/
inductive LockStep : LockSys → LockLabel → LockSys → Prop
  | acq (s : LockSys) (c d : Nat) (cfgType : String)
      (stats : Option ResourceStats)
      (hadm : admissionCheck cfgType s.known stats d = .proceed)
      (hfree : s.locked d = false) :
      LockStep s (.acq c d)
        ⟨s.known, fun x => if x = d then true else s.locked x,
         (c, d) :: s.holders⟩
  | rel (s : LockSys) (c d : Nat)
      (hmem : (c, d) ∈ s.holders) :
      LockStep s (.rel c d)
        ⟨s.known, fun x => if x = d then false else s.locked x,
         s.holders.erase (c, d)⟩

/-- The initial state: no lock taken, no grant outstanding. -/
def initSys (known : List Nat) : LockSys :=
  ⟨known, fun _ => false, []⟩

/-- States reachable from `init` by the step relation. -/
inductive ReachableFrom (init : LockSys) : LockSys → Prop
  | refl : ReachableFrom init init
  | step {s s' : LockSys} {l : LockLabel} :
      ReachableFrom init s → LockStep s l s' → ReachableFrom init s'

/-- Number of outstanding grants on device `d`. -/
def holderCount (s : LockSys) (d : Nat) : Nat :=
  s.holders.countP (fun p => p.2 == d)

end Res

namespace Inference

/-! ## `services/inference.py` -/

/-- `PredictionRequest` (the fields `PredictStructure` reads). -/
structure PredictionRequest where
  job_id : String
  sequence : String
  recycling_steps : Nat
  sampling_steps : Nat
  diffusion_samples : Nat
  output_format : String
  model_version : String
deriving DecidableEq, Repr

/-- `PredictionJob`: the record stored in `InferenceService.jobs`. -/
structure PredictionJob where
  job_id : String
  sequence : String
  recycling_steps : Nat
  sampling_steps : Nat
  diffusion_samples : Nat
  output_format : String
  model_version : String
  status : String
  result_path : Option String
  error_message : Option String
deriving DecidableEq, Repr

/-- `PredictionResponse` as `PredictStructure` builds it. -/
structure PredictionResponse where
  job_id : String
  status : String
  result_path : Option String
  error_message : Option String
deriving DecidableEq, Repr

/-- The `InferenceService.jobs` dict. -/
abbrev Jobs : Type := List (String × PredictionJob)

/-- How `_run_prediction` ends: the saved artifact's path, or an uncaught
exception with its message. -/
inductive RunOutcome
  | ok (resultPath : String)
  | exn (msg : String)
deriving DecidableEq, Repr

/-- `InferenceService.PredictStructure`: build a fresh `PredictionJob`
(status `"pending"`), store it in `self.jobs` unconditionally — there is no
duplicate-id check, so an existing record under the same id is replaced —
then run the prediction.  On success the stored record (the same object the
dict holds) is mutated to `"completed"` with its result path; on an
exception the handler only logs and returns a `"failed"` response, leaving
the stored record untouched at `"pending"`. -/
def predictStructure (jobs : Jobs) (req : PredictionRequest)
    (outcome : RunOutcome) : Jobs × PredictionResponse :=
  let job : PredictionJob :=
    ⟨req.job_id, req.sequence, req.recycling_steps, req.sampling_steps,
     req.diffusion_samples, req.output_format, req.model_version,
     "pending", none, none⟩
  let jobs1 := dictSet jobs req.job_id job
  match outcome with
  | .ok p =>
      let job2 := { job with status := "completed", result_path := some p }
      (dictSet jobs1 req.job_id job2,
       ⟨job2.job_id, job2.status, job2.result_path, job2.error_message⟩)
  | .exn e =>
      (jobs1, ⟨req.job_id, "failed", none, some e⟩)

/-- `CancelJobResponse` together with the grpc code set on the context
(`none` when the handler leaves the context untouched). -/
structure CancelResult where
  ctxCode : Option String
  job_id : String
  status : String
deriving DecidableEq, Repr

/-- `InferenceService.CancelJob`: `NOT_FOUND` for an unknown id; otherwise
set the stored job's status to `"cancelled"` unconditionally — terminal
records included, with no `FAILED_PRECONDITION` path. -/
def cancelJob (jobs : Jobs) (jobId : String) : Jobs × CancelResult :=
  match dictGet jobs jobId with
  | none => (jobs, ⟨some "NOT_FOUND", "", ""⟩)
  | some job =>
      (dictSet jobs jobId { job with status := "cancelled" },
       ⟨none, jobId, "cancelled"⟩)

end Inference

namespace Training

/-! ## `services/training.py` -/

/-- `TrainingRequest` (the fields `StartTraining` reads). -/
structure TrainingRequest where
  job_id : String
  config_path : String
  args : List String
  num_gpus : Nat
  output_dir : String
  resume : Bool
  checkpoint : Option String
  experiment_name : String
  hyperparameters : List (String × String)
deriving DecidableEq, Repr

/-- `TrainingJob`: the record stored in `TrainingService.jobs` (losses are
embedded as rationals; the `float("inf")` defaults are outside any claim and
are represented by an `Option` being `none`). -/
structure TrainingJob where
  job_id : String
  config_path : String
  args : List String
  num_gpus : Nat
  output_dir : String
  resume : Bool
  checkpoint : Option String
  experiment_name : String
  hyperparameters : List (String × String)
  status : String
  current_epoch : Nat
  checkpoint_path : Option String
  error_message : Option String
deriving DecidableEq, Repr

/-- `TrainingResponse` together with the grpc code set on the context. -/
structure TrainingResult where
  ctxCode : Option String
  job_id : String
  status : String
  error_message : Option String
deriving DecidableEq, Repr

/-- The mutable service state `StartTraining` and `CancelJob` touch. -/
structure TrainState where
  jobs : List (String × TrainingJob)
  current_job : Option String
deriving DecidableEq, Repr

/-- The fresh record `StartTraining` builds from a request. -/
def mkJob (req : TrainingRequest) : TrainingJob :=
  ⟨req.job_id, req.config_path, req.args, req.num_gpus, req.output_dir,
   req.resume, req.checkpoint, req.experiment_name, req.hyperparameters,
   "pending", 0, none, none⟩

/-- `TrainingService.StartTraining`: when the caller-supplied id is already
a key of `self.jobs`, set `ALREADY_EXISTS` and return without touching the
store; otherwise insert the fresh `"pending"` record and hand the job to the
async worker. -/
def startTraining (st : TrainState) (req : TrainingRequest) :
    TrainState × TrainingResult :=
  if dictMem st.jobs req.job_id then
    (st, ⟨some "ALREADY_EXISTS", req.job_id, "failed", some "Job already exists"⟩)
  else
    ({ st with jobs := dictSet st.jobs req.job_id (mkJob req) },
     ⟨none, req.job_id, "started", none⟩)

/-- `TrainingService.CancelJob`: `FAILED_PRECONDITION` (no mutation) unless
the requested id is the truthy current job (`if not self.current_job or
request.job_id != self.current_job`); otherwise look the record up —
`self.jobs[request.job_id]` is an uncaught `KeyError` when absent — and set
its status to `"cancelled"`. -/
def cancelJob (st : TrainState) (jobId : String) :
    Except Unit (TrainState × TrainingResult) :=
  let noActive : Bool :=
    match st.current_job with
    | none => true
    | some cur => cur = "" ∨ jobId ≠ cur
  if noActive then
    .ok (st, ⟨some "FAILED_PRECONDITION", jobId, "failed", some "No active job to cancel"⟩)
  else
    match dictGet st.jobs jobId with
    | none => .error ()
    | some job =>
        .ok ({ st with jobs := dictSet st.jobs jobId { job with status := "cancelled" } },
             ⟨none, jobId, "cancelled", none⟩)

end Training

/-! ## Concrete instances used by counterexamples and witnesses -/

/-- A redis backend whose `get_msa` round-trip raises a timeout. -/
def failingGetBackend : Cache.Backend :=
  ⟨.raised "redis timeout", .done⟩

/-- A healthy redis backend holding no keys. -/
def emptyOkBackend : Cache.Backend :=
  ⟨.val none, .done⟩

/-- A redis backend whose `set_msa` round-trip raises. -/
def failingSetBackend : Cache.Backend :=
  ⟨.val none, .raised "redis write error"⟩

/-- Environment for the dataset-gate counterexample: `BOLTZ_BFD_PATH` points
at `/db`, the directory and five of the six required shard files exist, the
`hhm_data` shard is absent, and no other database variable is set. -/
def gateEnv : Db.Env :=
  ⟨fun v => if v = "BOLTZ_BFD_PATH" then some "/db" else none,
   fun p => !(p = "/db/" ++ Db.bfdBase ++ "_hhm.ffdata")⟩

/-- An inference request with caller-supplied id `"job-1"`. -/
def reqJob1 : Inference.PredictionRequest :=
  ⟨"job-1", "MVKVGVNG", 3, 200, 1, "mmcif", "latest"⟩

/-- A terminal (completed) inference record stored under `"job-1"`. -/
def doneJob1 : Inference.PredictionJob :=
  ⟨"job-1", "MVKVGVNG", 3, 200, 1, "mmcif", "latest", "completed",
   some "/cache/predictions/job-1/prediction.mmcif", none⟩

/-- A second inference request reusing id `"job-1"` for a different
sequence. -/
def reqJob1Dup : Inference.PredictionRequest :=
  ⟨"job-1", "ACDEFGHIKL", 3, 200, 1, "mmcif", "latest"⟩

/-- A terminal (completed) training record stored under `"t-1"`. -/
def doneTrainJob : Training.TrainingJob :=
  ⟨"t-1", "/cfg.yaml", [], 1, "/out", false, none, "exp", [],
   "completed", 3, some "/out/best.ckpt", none⟩

/-- A training request reusing the stored id `"t-1"`. -/
def reqTrainDup : Training.TrainingRequest :=
  ⟨"t-1", "/cfg2.yaml", [], 2, "/out2", false, none, "exp2", []⟩

/-- The lock state after one successful acquire of device `0` by caller
`7` from the initial single-device state. -/
def heldSys : Res.LockSys :=
  ⟨[0], fun x => if x = 0 then true else (Res.initSys [0]).locked x,
   (7, 0) :: (Res.initSys [0]).holders⟩

/-- The safety invariant of the lock system: each device has at most one
outstanding grant, and a free lock means no outstanding grant. -/
def LockInv (s : Res.LockSys) : Prop :=
  ∀ d, Res.holderCount s d ≤ 1 ∧
    (s.locked d = false → Res.holderCount s d = 0)

/-! ## Claims -/

/-- Dict insertion binds the inserted key. -/
theorem dictGet_dictSet_same {α : Type} (m : List (String × α)) (k : String)
    (v : α) : dictGet (dictSet m k v) k = some v := by
  simp [dictGet, dictSet]

/-- Dict insertion leaves other keys unchanged. -/
theorem dictGet_dictSet_other {α : Type} (m : List (String × α))
    (k k' : String) (v : α) (h : k ≠ k') :
    dictGet (dictSet m k v) k' = dictGet m k' := by
  simp [dictGet, dictSet, h]

/-- Outside the 36 characters with a recorded uppercase mapping,
`pyUpperChar` is the identity expansion. -/
theorem pyUpperChar_eq_self (c : Char) (hc : c ∉ Seq.mappedChars) :
    Seq.pyUpperChar c = [c] := by
  simp only [Seq.mappedChars, List.mem_cons, List.not_mem_nil, or_false,
    not_or] at hc
  obtain ⟨h1, h2, h3, h4, h5, h6, h7, h8, h9, h10, h11, h12, h13, h14, h15, h16, h17, h18, h19, h20, h21, h22, h23, h24, h25, h26, h27, h28, h29, h30, h31, h32, h33, h34, h35, h36⟩ := hc
  unfold Seq.pyUpperChar
  simp only [h1, h2, h3, h4, h5, h6, h7, h8, h9, h10, h11, h12, h13, h14, h15, h16, h17, h18, h19, h20, h21, h22, h23, h24, h25, h26, h27, h28, h29, h30, h31, h32, h33, h34, h35, h36, if_false]

/-- Per-character classification of the subset test of `validate_sequence`:
the uppercase expansion of `c` consists solely of valid letters iff `c` is
one of the twenty letters, one of their ASCII lowercase forms, or one of the
ten special-uppercase characters. -/
theorem pyUpperChar_all_valid (c : Char) :
    ((Seq.pyUpperChar c).all fun x => x ∈ Seq.validChars) = true ↔
      (c ∈ Seq.validChars ∨ c ∈ Seq.validLowerChars ∨
        c ∈ Seq.upperExpandChars) := by
  by_cases hm : c ∈ Seq.mappedChars
  · fin_cases hm <;> decide
  · rw [pyUpperChar_eq_self c hm]
    have hlow : ∀ x ∈ Seq.validLowerChars, x ∈ Seq.mappedChars := by decide
    have hexp : ∀ x ∈ Seq.upperExpandChars, x ∈ Seq.mappedChars := by decide
    constructor
    · intro h
      left
      simpa using h
    · rintro (h | h | h)
      · simpa using h
      · exact absurd (hlow c h) hm
      · exact absurd (hexp c h) hm

/-- C10 counterexample: the model (and CPython) accept the sequence `"ß"`:
`'ß'.upper() == "SS"` lies inside the amino-acid alphabet, so
`validate_sequence` returns `True` even though `'ß'` is not,
case-insensitively, one of the twenty letters — and `GenerateMSA` does not
reject it with `InvalidArgument`: it creates the output directory and
invokes the external tool. -/
theorem validate_unicode_counterexample :
    Seq.validateSequence ['ß'] = true ∧
    ('ß' ∉ Seq.validChars ∧ 'ß' ∉ Seq.validLowerChars) ∧
    Msa.generateMSA ['ß'] .noHost (fun _ => false) true 0 "/out" =
      (⟨none, "completed", some "/out"⟩, ⟨true, true⟩) := by
  refine ⟨?_, ?_, ?_⟩ <;> decide

/-- C10 (amended): `validate_sequence(s)` returns `True` iff `s` is
non-empty, has length at most 2000, and every character of `s` either is one
of the twenty letters `ACDEFGHIKLMNPQRSTVWY`, is one of their ASCII
lowercase forms, or is one of the ten non-ASCII characters (`ß ı ſ ﬀ ﬁ ﬂ ﬃ
ﬄ ﬅ ﬆ`) whose full Unicode uppercase expansion consists solely of those
letters — Python's `str.upper` is applied, not a 20-letter case-insensitive
membership test.  MSA generation rejects any sequence failing this predicate
with `InvalidArgument` before creating any output or invoking the external
tool. -/
theorem validate_sequence_amended (s : List Char) :
    (Seq.validateSequence s = true ↔
      s ≠ [] ∧ s.length ≤ 2000 ∧
        ∀ c ∈ s, c ∈ Seq.validChars ∨ c ∈ Seq.validLowerChars ∨
          c ∈ Seq.upperExpandChars) ∧
    (Seq.validateSequence s = false →
      ∀ attempt fsEx bfdOk toolExit outPath,
        Msa.generateMSA s attempt fsEx bfdOk toolExit outPath =
          (⟨some "INVALID_ARGUMENT", "", none⟩, ⟨false, false⟩)) := by
  constructor
  · unfold Seq.validateSequence
    constructor
    · intro h
      split_ifs at h with h1 h2
      rw [List.isEmpty_iff] at h1
      refine ⟨h1, by omega, ?_⟩
      intro c hc
      rw [← pyUpperChar_all_valid]
      simp only [List.all_eq_true, List.mem_flatMap] at h ⊢
      intro x hx
      exact h x ⟨c, hc, hx⟩
    · rintro ⟨h1, h2, h3⟩
      rw [if_neg (by simpa [List.isEmpty_iff] using h1), if_neg (by omega)]
      simp only [List.all_eq_true, List.mem_flatMap]
      rintro x ⟨c, hc, hx⟩
      have hv := (pyUpperChar_all_valid c).mpr (h3 c hc)
      simp only [List.all_eq_true] at hv
      exact hv x hx
  · intro h attempt fsEx bfdOk toolExit outPath
    simp [Msa.generateMSA, h]

/-- Witness for C10 (amended): the digit in `"M1"` fails the predicate and
the request is rejected with `InvalidArgument` and no side effect. -/
theorem validate_sequence_amended_witness :
    Msa.generateMSA ['M', '1'] .noHost (fun _ => false) true 0 "/out" =
      (⟨some "INVALID_ARGUMENT", "", none⟩, ⟨false, false⟩) :=
  (validate_sequence_amended ['M', '1']).2 (by decide)
    .noHost (fun _ => false) true 0 "/out"

/-- C8: after `store(x, path)`, `lookup(x)` returns `path` iff the file at
`path` still exists on disk at lookup time; a stale index entry (file gone)
is a miss, not an error. -/
theorem cache_roundtrip (m : Cache.RedisMap) (fsEx : String → Bool)
    (sequence p : String) (hempty : fsEx "" = false) :
    Cache.lookupMsa (Cache.setMsa m sequence p) fsEx sequence =
      if fsEx p then some p else none := by
  unfold Cache.lookupMsa Cache.setMsa Cache.getMsa
  rw [dictGet_dictSet_same]
  by_cases hp : p = ""
  · subst hp
    simp [hempty]
  · simp [hp]

/-- Witness for C8: store then delete the artifact out of band; the lookup
is a miss, while with the file present it returns the stored path. -/
theorem cache_roundtrip_witness :
    Cache.lookupMsa (Cache.setMsa [] "MVKVGVNG" "/msa/a.a3m")
        (fun q => q == "/msa/a.a3m") "MVKVGVNG" =
      (if ("/msa/a.a3m" == "/msa/a.a3m" : Bool) then some "/msa/a.a3m" else none) ∧
    Cache.lookupMsa (Cache.setMsa [] "MVKVGVNG" "/msa/a.a3m")
        (fun _ => false) "MVKVGVNG" =
      (if (false : Bool) then some "/msa/a.a3m" else none) :=
  ⟨cache_roundtrip [] (fun q => q == "/msa/a.a3m") "MVKVGVNG" "/msa/a.a3m" (by decide),
   cache_roundtrip [] (fun _ => false) "MVKVGVNG" "/msa/a.a3m" rfl⟩

/-- C9 counterexample: a backend failure during `get_msa` propagates out of
`_run_hhblits` and the `GenerateMSA` job reports `"failed"`, whereas the
identical call with the cache absent runs the tool and completes — the
failure both reaches the caller and changes the result. -/
theorem redis_failure_propagates_counterexample :
    Msa.runHhblits (.connected failingGetBackend) (fun _ => true) true 0 "/out"
        = .raised "redis timeout" ∧
    Msa.runHhblits .noHost (fun _ => true) true 0 "/out"
        = .toolCompleted "/out" ∧
    (Msa.generateMSA ['M', 'V', 'K'] (.connected failingGetBackend)
        (fun _ => true) true 0 "/out").1.status = "failed" ∧
    (Msa.generateMSA ['M', 'V', 'K'] .noHost
        (fun _ => true) true 0 "/out").1.status = "completed" := by
  refine ⟨rfl, rfl, ?_, ?_⟩ <;> decide

/-- C9 (amended): only a `redis.ConnectionError` raised while establishing
the connection (constructor or `ping`, inside `get_redis_cache`) is
absorbed, making the call behave exactly as if no cache were configured; a
backend failure during `get_msa` or `set_msa` is uncaught in
`_run_hhblits`, propagates, and surfaces as a failed MSA job instead of
degrading to a cache miss. -/
theorem redis_degradation_amended (fsEx : String → Bool) (bfdOk : Bool)
    (toolExit : Nat) (out : String) (b : Cache.Backend) (m : String) :
    (Msa.runHhblits .connError fsEx bfdOk toolExit out =
       Msa.runHhblits .noHost fsEx bfdOk toolExit out) ∧
    (b.onGet = .raised m →
       Msa.runHhblits (.connected b) fsEx bfdOk toolExit out = .raised m) ∧
    (b.onGet = .val none → b.onSet = .raised m → bfdOk = true → toolExit = 0 →
       Msa.runHhblits (.connected b) fsEx bfdOk toolExit out = .raised m) ∧
    (∀ s, Seq.validateSequence s = true → b.onGet = .raised m →
       (Msa.generateMSA s (.connected b) fsEx bfdOk toolExit out).1.status
         = "failed") := by
  refine ⟨rfl, ?_, ?_, ?_⟩
  · intro hg
    simp [Msa.runHhblits, Cache.getRedisCache, hg]
  · intro hg hs hb ht
    simp [Msa.runHhblits, Cache.getRedisCache, Msa.runTool, hg, hs, hb, ht]
  · intro s hv hg
    simp [Msa.generateMSA, hv, Msa.runHhblits, Cache.getRedisCache, hg]

/-- Witness for C9 (amended) at concrete failing backends. -/
theorem redis_degradation_amended_witness :
    (Msa.runHhblits .connError (fun _ => false) true 0 "/out" =
       Msa.runHhblits .noHost (fun _ => false) true 0 "/out") ∧
    (Msa.runHhblits (.connected failingGetBackend) (fun _ => false) true 0 "/out"
       = .raised "redis timeout") ∧
    (Msa.runHhblits (.connected failingSetBackend) (fun _ => false) true 0 "/out"
       = .raised "redis write error") ∧
    (Msa.generateMSA ['M', 'V', 'K'] (.connected failingGetBackend)
        (fun _ => false) true 0 "/out").1.status = "failed" := by
  have h := redis_degradation_amended (fun _ => false) true 0 "/out"
  refine ⟨(h failingGetBackend "redis timeout").1, ?_, ?_, ?_⟩
  · exact (h failingGetBackend "redis timeout").2.1 rfl
  · exact (h failingSetBackend "redis write error").2.2.1 rfl rfl rfl rfl
  · exact (h failingGetBackend "redis timeout").2.2.2 ['M', 'V', 'K'] (by decide) rfl

/-- The deletion loop, run on a list whose exact total is passed in, keeps a
suffix: it drops the minimal number of leading (oldest) files that brings
the total within the budget. -/
theorem deleteOldest_drop (maxSize : Nat) :
    ∀ l : List Db.CacheFile,
      ∃ k, Db.deleteOldest l (Db.sizeSum l) maxSize = l.drop k ∧
        Db.sizeSum (l.drop k) ≤ maxSize ∧
        ∀ j < k, maxSize < Db.sizeSum (l.drop j)
  | [] => by
    refine ⟨0, ?_, ?_, ?_⟩
    · simp [Db.deleteOldest, Db.sizeSum]
    · simp [Db.sizeSum]
    · omega
  | f :: rest => by
    by_cases h : Db.sizeSum (f :: rest) ≤ maxSize
    · refine ⟨0, ?_, by simpa using h, by omega⟩
      simp [Db.deleteOldest, h]
    · obtain ⟨k, hk, hle, hmin⟩ := deleteOldest_drop maxSize rest
      refine ⟨k + 1, ?_, by simpa using hle, ?_⟩
      · have hsum : Db.sizeSum (f :: rest) - f.size = Db.sizeSum rest := by
          simp [Db.sizeSum]
        simpa [Db.deleteOldest, h, hsum] using hk
      · intro j hj
        match j with
        | 0 => simpa using Nat.lt_of_not_le h
        | j' + 1 => simpa using hmin j' (by omega)

/-- C7: when the total size of a cache directory exceeds the budget,
`cleanup_cache` (with every deletion succeeding) leaves a total at most the
budget and deletes exactly the minimal number of oldest-by-mtime files
needed; when the total is within the budget, nothing is deleted.  The list
it deletes from is a permutation of the scanned files sorted ascending by
mtime. -/
theorem cleanup_cache_spec (files : List Db.CacheFile) (maxSize : Nat) :
    (Db.sizeSum files ≤ maxSize → Db.cleanupCache files maxSize = files) ∧
    (maxSize < Db.sizeSum files →
      ∃ k,
        Db.cleanupCache files maxSize = (files.mergeSort Db.mtimeLE).drop k ∧
        Db.sizeSum (Db.cleanupCache files maxSize) ≤ maxSize ∧
        (∀ j < k,
          maxSize < Db.sizeSum ((files.mergeSort Db.mtimeLE).drop j)) ∧
        (files.mergeSort Db.mtimeLE).Pairwise
          (fun a b => a.mtime ≤ b.mtime) ∧
        (files.mergeSort Db.mtimeLE).Perm files) := by
  constructor
  · intro h
    simp [Db.cleanupCache, Nat.not_lt.mpr h]
  · intro h
    have hperm : (files.mergeSort Db.mtimeLE).Perm files :=
      List.mergeSort_perm files Db.mtimeLE
    have hsum : Db.sizeSum (files.mergeSort Db.mtimeLE) = Db.sizeSum files := by
      unfold Db.sizeSum
      exact (hperm.map Db.CacheFile.size).sum_eq
    obtain ⟨k, hk, hle, hmin⟩ :=
      deleteOldest_drop maxSize (files.mergeSort Db.mtimeLE)
    have hcleanup : Db.cleanupCache files maxSize =
        (files.mergeSort Db.mtimeLE).drop k := by
      rw [Db.cleanupCache, if_pos h, ← hsum, hk]
    have hsorted : (files.mergeSort Db.mtimeLE).Pairwise
        (fun a b => a.mtime ≤ b.mtime) := by
      have := @List.sorted_mergeSort Db.CacheFile Db.mtimeLE
        (fun a b c hab hbc => by
          simp only [Db.mtimeLE, decide_eq_true_eq] at *
          omega)
        (fun a b => by
          simp only [Db.mtimeLE, Bool.or_eq_true, decide_eq_true_eq]
          omega)
        files
      refine this.imp ?_
      intro a b hab
      simpa [Db.mtimeLE] using hab
    exact ⟨k, hcleanup, hcleanup ▸ hle, hmin, hsorted, hperm⟩

/-- Witness for C7: three one-byte files with mtimes 3, 1, 2 and a budget of
one byte: the two oldest are evicted; with a large budget nothing is. -/
theorem cleanup_cache_spec_witness :
    Db.cleanupCache
        [⟨"/c/a", 1, 3⟩, ⟨"/c/b", 1, 1⟩, ⟨"/c/c", 1, 2⟩] 10 =
      [⟨"/c/a", 1, 3⟩, ⟨"/c/b", 1, 1⟩, ⟨"/c/c", 1, 2⟩] ∧
    ∃ k,
      Db.cleanupCache
          [⟨"/c/a", 1, 3⟩, ⟨"/c/b", 1, 1⟩, ⟨"/c/c", 1, 2⟩] 1 =
        (([⟨"/c/a", 1, 3⟩, ⟨"/c/b", 1, 1⟩, ⟨"/c/c", 1, 2⟩] :
            List Db.CacheFile).mergeSort Db.mtimeLE).drop k ∧
      Db.sizeSum (Db.cleanupCache
          [⟨"/c/a", 1, 3⟩, ⟨"/c/b", 1, 1⟩, ⟨"/c/c", 1, 2⟩] 1) ≤ 1 ∧
      (∀ j < k, 1 < Db.sizeSum ((([⟨"/c/a", 1, 3⟩, ⟨"/c/b", 1, 1⟩,
          ⟨"/c/c", 1, 2⟩] : List Db.CacheFile).mergeSort Db.mtimeLE).drop j)) ∧
      (([⟨"/c/a", 1, 3⟩, ⟨"/c/b", 1, 1⟩, ⟨"/c/c", 1, 2⟩] :
          List Db.CacheFile).mergeSort Db.mtimeLE).Pairwise
        (fun a b => a.mtime ≤ b.mtime) ∧
      (([⟨"/c/a", 1, 3⟩, ⟨"/c/b", 1, 1⟩, ⟨"/c/c", 1, 2⟩] :
          List Db.CacheFile).mergeSort Db.mtimeLE).Perm
        [⟨"/c/a", 1, 3⟩, ⟨"/c/b", 1, 1⟩, ⟨"/c/c", 1, 2⟩] :=
  ⟨(cleanup_cache_spec
      [⟨"/c/a", 1, 3⟩, ⟨"/c/b", 1, 1⟩, ⟨"/c/c", 1, 2⟩] 10).1 (by decide),
   (cleanup_cache_spec
      [⟨"/c/a", 1, 3⟩, ⟨"/c/b", 1, 1⟩, ⟨"/c/c", 1, 2⟩] 1).2 (by decide)⟩

/-- Inversion for `BFDConfig.from_env`: a configuration is only ever
returned when, at the moment it was built, the directory and all six shard
files existed — so every `asdict` path passes the health loop's existence
test under the same environment. -/
theorem bfdFromEnv_paths_exist (env : Db.Env) (b : Db.BFDConfig)
    (h : Db.bfdFromEnv env = some b) :
    ∀ np ∈ b.asdict, env.fsExists np.2 = true := by
  unfold Db.bfdFromEnv at h
  cases hg : env.getenv "BOLTZ_BFD_PATH" with
  | none => rw [hg] at h; cases h
  | some dbPath =>
    rw [hg] at h
    dsimp only at h
    split_ifs at h with h1 h2 h3
    simp only [Db.bfdRequiredFiles, List.all_cons, List.all_nil,
      Bool.and_eq_true, and_true] at h3
    obtain ⟨e1, e2, e3, e4, e5, e6⟩ := h3
    cases Option.some.inj h
    intro np hnp
    simp only [Db.BFDConfig.asdict, List.mem_cons, List.not_mem_nil,
      or_false] at hnp
    rcases hnp with rfl | rfl | rfl | rfl | rfl | rfl | rfl <;>
      first
        | exact e1 | exact e2 | exact e3 | exact e4 | exact e5 | exact e6
        | simpa using h2

/-- The BFD section of the health loop never produces a problem line: the
configuration is only non-`None` when all its paths existed under the same
environment. -/
theorem checkDatabaseHealth_eq (env : Db.Env) :
    Db.checkDatabaseHealth env =
      (match (Db.databaseConfigFromEnv env).uniref_path with
       | none => []
       | some p =>
         if env.fsExists p then []
         else ["UniRef database not found: " ++ p]) ++
      (match (Db.databaseConfigFromEnv env).taxonomy_path with
       | none => []
       | some q =>
         if env.fsExists q then []
         else ["Taxonomy database not found: " ++ q]) := by
  simp only [Db.checkDatabaseHealth]
  rcases hb : (Db.databaseConfigFromEnv env).bfd with _ | b
  · rfl
  · have hex := bfdFromEnv_paths_exist env b hb
    have : (b.asdict.filterMap fun np =>
        if env.fsExists np.2 then none
        else some ("BFD " ++ np.1 ++ " not found: " ++ np.2)) = [] := by
      simp only [List.filterMap_eq_nil_iff]
      intro np hnp
      rw [hex np hnp]
      simp
    dsimp only
    rw [this]
    rfl

/-- C6 counterexample: with `BOLTZ_BFD_PATH` configured, the directory and
five of the six declared BFD shard files present and exactly one
(`hhm_data`) absent, `check()` returns the empty list — it reports nothing,
because `BFDConfig.from_env` collapses to `None` — even though a declared
shard is missing; so an empty problem list does not mean every declared
shard exists. -/
theorem dataset_gate_counterexample :
    (Db.bfdRequiredFiles.map fun nf => gateEnv.fsExists ("/db/" ++ nf.2)) =
      [true, true, true, true, true, false] ∧
    gateEnv.fsExists "/db" = true ∧
    gateEnv.getenv "BOLTZ_BFD_PATH" = some "/db" ∧
    Db.checkDatabaseHealth gateEnv = [] := by
  refine ⟨?_, ?_, ?_, ?_⟩ <;> decide

/-- C6 (amended): the health check never reports a BFD problem — a BFD
configuration only loads when every declared file exists, and a missing
shard instead makes `BFDConfig.from_env` return `None`, silently dropping
the whole BFD block; no configured checksum is ever verified.  `check()`
returns the empty list iff each configured UniRef/taxonomy path exists, and
a configured UniRef path that is absent (with taxonomy unset) is reported as
exactly that one problem. -/
theorem check_database_health_amended (env : Db.Env) :
    (Db.checkDatabaseHealth env = [] ↔
      (∀ p, (Db.databaseConfigFromEnv env).uniref_path = some p →
        env.fsExists p = true) ∧
      (∀ p, (Db.databaseConfigFromEnv env).taxonomy_path = some p →
        env.fsExists p = true)) ∧
    (∀ p, (Db.databaseConfigFromEnv env).uniref_path = some p →
      env.fsExists p = false →
      (Db.databaseConfigFromEnv env).taxonomy_path = none →
      Db.checkDatabaseHealth env = ["UniRef database not found: " ++ p]) := by
  constructor
  · rw [checkDatabaseHealth_eq]
    rcases hu : (Db.databaseConfigFromEnv env).uniref_path with _ | p <;>
      rcases ht : (Db.databaseConfigFromEnv env).taxonomy_path with _ | q <;>
        simp
  · intro p hp hf ht
    rw [checkDatabaseHealth_eq, hp, ht]
    simp [hf]

/-- Witness for C6 (amended): an environment configuring only a UniRef path
that is absent on disk yields exactly that problem line, and the empty
environment yields a clean check. -/
theorem check_database_health_amended_witness :
    Db.checkDatabaseHealth
        ⟨fun v => if v = "BOLTZ_UNIREF_PATH" then some "/u.fasta" else none,
         fun _ => false⟩ =
      ["UniRef database not found: " ++ "/u.fasta"] ∧
    (Db.checkDatabaseHealth ⟨fun _ => none, fun _ => false⟩ = [] ↔
      (∀ p, (Db.databaseConfigFromEnv
          ⟨fun _ => none, fun _ => false⟩).uniref_path = some p →
        (⟨fun _ => none, fun _ => false⟩ : Db.Env).fsExists p = true) ∧
      (∀ p, (Db.databaseConfigFromEnv
          ⟨fun _ => none, fun _ => false⟩).taxonomy_path = some p →
        (⟨fun _ => none, fun _ => false⟩ : Db.Env).fsExists p = true)) :=
  ⟨(check_database_health_amended
      ⟨fun v => if v = "BOLTZ_UNIREF_PATH" then some "/u.fasta" else none,
       fun _ => false⟩).2 "/u.fasta" (by decide) rfl (by decide),
   (check_database_health_amended ⟨fun _ => none, fun _ => false⟩).1⟩

/-- C1 (evaluation at the failing input): an exception raised while running
the prediction for a freshly submitted job leaves the stored registry record
with status `"pending"`, even though the response returned to the caller
says `"failed"` — the handler never writes the failure back into
`self.jobs`. -/
theorem predict_exception_leaves_pending :
    (Inference.predictStructure [] reqJob1 (.exn "boom")).2.status
      = "failed" ∧
    dictGet (Inference.predictStructure [] reqJob1 (.exn "boom")).1 "job-1"
      = some ⟨"job-1", "MVKVGVNG", 3, 200, 1, "mmcif", "latest",
              "pending", none, none⟩ ∧
    (Inference.predictStructure [] reqJob1 (.ok "/res")).2.status
      = "completed" ∧
    dictGet (Inference.predictStructure [] reqJob1 (.ok "/res")).1 "job-1"
      = some ⟨"job-1", "MVKVGVNG", 3, 200, 1, "mmcif", "latest",
              "completed", some "/res", none⟩ := by
  refine ⟨rfl, ?_, rfl, ?_⟩ <;> decide

/-- C2 counterexample: submitting to the inference service under an id that
is already present does not fail with `AlreadyExists` and does not leave the
existing record unchanged — the second submission silently replaces the
stored record (both submissions insert). -/
theorem duplicate_inference_submission_overwrites :
    dictGet [("job-1", doneJob1)] "job-1" = some doneJob1 ∧
    (Inference.predictStructure [("job-1", doneJob1)] reqJob1Dup
        (.ok "/new")).2
      = ⟨"job-1", "completed", some "/new", none⟩ ∧
    dictGet (Inference.predictStructure [("job-1", doneJob1)] reqJob1Dup
        (.ok "/new")).1 "job-1"
      = some ⟨"job-1", "ACDEFGHIKL", 3, 200, 1, "mmcif", "latest",
              "completed", some "/new", none⟩ := by
  refine ⟨rfl, ?_, ?_⟩ <;> decide

/-- C2 (amended): the training service enforces the duplicate-id contract —
a submission whose id is already a key fails with `ALREADY_EXISTS` leaving
the state untouched, a submission with a fresh id inserts exactly the new
pending record, and of two submissions with the same id exactly the first
inserts.  The inference service does not: it stores the new record
unconditionally, replacing any record already under that id. -/
theorem duplicate_submission_amended (st : Training.TrainState)
    (req : Training.TrainingRequest) :
    (dictMem st.jobs req.job_id = true →
      Training.startTraining st req =
        (st, ⟨some "ALREADY_EXISTS", req.job_id, "failed",
              some "Job already exists"⟩)) ∧
    (dictMem st.jobs req.job_id = false →
      Training.startTraining st req =
        ({ st with jobs := dictSet st.jobs req.job_id (Training.mkJob req) },
         ⟨none, req.job_id, "started", none⟩) ∧
      Training.startTraining (Training.startTraining st req).1 req =
        ((Training.startTraining st req).1,
         ⟨some "ALREADY_EXISTS", req.job_id, "failed",
          some "Job already exists"⟩)) ∧
    (∀ (jobs : Inference.Jobs) (ireq : Inference.PredictionRequest) (p : String),
      dictGet (Inference.predictStructure jobs ireq (.ok p)).1 ireq.job_id =
        some ⟨ireq.job_id, ireq.sequence, ireq.recycling_steps,
              ireq.sampling_steps, ireq.diffusion_samples, ireq.output_format,
              ireq.model_version, "completed", some p, none⟩) := by
  refine ⟨?_, ?_, ?_⟩
  · intro h
    simp [Training.startTraining, h]
  · intro h
    constructor
    · simp [Training.startTraining, h]
    · have h1 : Training.startTraining st req =
          ({ st with jobs := dictSet st.jobs req.job_id (Training.mkJob req) },
           ⟨none, req.job_id, "started", none⟩) := by
        simp [Training.startTraining, h]
      rw [h1]
      have hmem : dictMem (dictSet st.jobs req.job_id (Training.mkJob req))
          req.job_id = true := by
        simp [dictMem, dictGet_dictSet_same]
      simp [Training.startTraining, hmem]
  · intro jobs ireq p
    simp [Inference.predictStructure, dictGet_dictSet_same]

/-- Witness for C2 (amended) at a concrete duplicate training submission. -/
theorem duplicate_submission_amended_witness :
    Training.startTraining ⟨[("t-1", doneTrainJob)], none⟩ reqTrainDup =
      (⟨[("t-1", doneTrainJob)], none⟩,
       ⟨some "ALREADY_EXISTS", "t-1", "failed", some "Job already exists"⟩) :=
  (duplicate_submission_amended ⟨[("t-1", doneTrainJob)], none⟩
    reqTrainDup).1 (by decide)

/-- C3 counterexample: cancelling a completed inference job does not fail
with `FailedPrecondition` and does not leave the terminal record unchanged —
the stored status is overwritten to `"cancelled"`. -/
theorem cancel_terminal_inference_job_mutates :
    doneJob1.status = "completed" ∧
    (Inference.cancelJob [("job-1", doneJob1)] "job-1").2
      = ⟨none, "job-1", "cancelled"⟩ ∧
    dictGet (Inference.cancelJob [("job-1", doneJob1)] "job-1").1 "job-1"
      = some { doneJob1 with status := "cancelled" } := by
  refine ⟨rfl, ?_, ?_⟩ <;> decide

/-- C3 (amended): in the training service, `CancelJob` on any id that is not
the truthy current in-flight job — in particular on every job whose worker
has finished, i.e. every terminal job — fails with `FAILED_PRECONDITION`
and leaves the stored records unchanged.  In the inference service,
`CancelJob` on any stored job, terminal or not, never fails with
`FAILED_PRECONDITION`: it unconditionally rewrites the stored status to
`"cancelled"`, so terminal inference records are not immutable. -/
theorem cancel_terminal_amended (st : Training.TrainState) (jobId : String) :
    ((∀ cur, st.current_job = some cur → cur = "" ∨ jobId ≠ cur) →
      Training.cancelJob st jobId =
        .ok (st, ⟨some "FAILED_PRECONDITION", jobId, "failed",
                  some "No active job to cancel"⟩)) ∧
    (∀ (jobs : Inference.Jobs) (job : Inference.PredictionJob),
      dictGet jobs jobId = some job →
      Inference.cancelJob jobs jobId =
        (dictSet jobs jobId { job with status := "cancelled" },
         ⟨none, jobId, "cancelled"⟩)) := by
  constructor
  · intro h
    cases hc : st.current_job with
    | none => simp [Training.cancelJob, hc]
    | some cur =>
      have := h cur hc
      simp [Training.cancelJob, hc, this]
  · intro jobs job hj
    simp [Inference.cancelJob, hj]

/-- Witness for C3 (amended): cancelling the stored terminal training job
`"t-1"` while no job is current fails with `FAILED_PRECONDITION` and leaves
the state unchanged; cancelling the stored inference job mutates it. -/
theorem cancel_terminal_amended_witness :
    Training.cancelJob ⟨[("t-1", doneTrainJob)], none⟩ "t-1" =
      .ok (⟨[("t-1", doneTrainJob)], none⟩,
           ⟨some "FAILED_PRECONDITION", "t-1", "failed",
            some "No active job to cancel"⟩) ∧
    Inference.cancelJob [("job-1", doneJob1)] "job-1" =
      (dictSet [("job-1", doneJob1)] "job-1"
         { doneJob1 with status := "cancelled" },
       ⟨none, "job-1", "cancelled"⟩) :=
  ⟨(cancel_terminal_amended ⟨[("t-1", doneTrainJob)], none⟩ "t-1").1
     (fun cur hcur => Option.noConfusion hcur),
   (cancel_terminal_amended ⟨[("t-1", doneTrainJob)], none⟩ "job-1").2
     [("job-1", doneJob1)] doneJob1 (by decide)⟩

/-- C4 counterexample: with no monitor snapshot taken yet, `acquire_device`
does not reject conservatively (there is no grace-period mechanism at all):
the admission block is skipped and the call proceeds straight to the lock,
acquiring it when free.  Moreover a snapshot showing the device's own memory
at 95% is also admitted — only device utilization and system-wide memory
are ever consulted. -/
theorem acquire_unknown_snapshot_admitted :
    Res.admissionCheck "gpu" [0] none 0 = .proceed ∧
    Res.acquireDevice "gpu" [0] none 0 true = .acquired ∧
    Res.admissionCheck "gpu" [0]
        (some ⟨50, 50, some [50], some [95]⟩) 0 = .proceed := by
  refine ⟨rfl, rfl, ?_⟩
  norm_num [Res.admissionCheck, Res.memoryCheck]

/-- C4 (amended): `acquire_device` runs its admission check against the
latest monitor snapshot before touching the device lock.  An unknown device
fails immediately.  With a snapshot present, a `"gpu"` configuration whose
snapshot lists the device's utilization above 90 fails with
`ResourceExhausted`, and system memory above 90 likewise — in both cases
without waiting on the lock (the outcome is independent of whether the lock
could be obtained).  When no snapshot has been taken yet, the admission
block is skipped entirely — the unknown snapshot is treated as
below-threshold immediately, with no conservative rejection and no grace
period — and the call proceeds to the lock. -/
theorem acquire_admission_amended (known : List Nat) (d : Nat)
    (s : Res.ResourceStats) (gu : List ℚ) (u : ℚ) :
    (d ∉ known → ∀ g, Res.acquireDevice "gpu" known (some s) d g =
      .exhausted ("Device " ++ toString d ++ " not available")) ∧
    (d ∈ known → s.gpu_utilization = some gu → gu[d]? = some u → u > 90 →
      ∀ g, Res.acquireDevice "gpu" known (some s) d g =
        .exhausted ("GPU " ++ toString d ++ " is overloaded")) ∧
    (d ∈ known → s.gpu_utilization = some gu → gu[d]? = some u → u ≤ 90 →
      s.memory_percent > 90 →
      ∀ g, Res.acquireDevice "gpu" known (some s) d g =
        .exhausted "System memory is exhausted") ∧
    (d ∈ known →
      Res.admissionCheck "gpu" known none d = .proceed ∧
      ∀ g, Res.acquireDevice "gpu" known none d g =
        (if g then .acquired
         else .exhausted ("Timeout waiting for device " ++ toString d))) := by
  refine ⟨?_, ?_, ?_, ?_⟩
  · intro hd g
    simp [Res.acquireDevice, Res.admissionCheck, hd]
  · intro hd hgu hu hover g
    have hne : gu.isEmpty = false := by
      cases gu with
      | nil => simp at hu
      | cons a l => rfl
    simp [Res.acquireDevice, Res.admissionCheck, hd, hgu, hne, hu, hover]
  · intro hd hgu hu hle hmem g
    have hne : gu.isEmpty = false := by
      cases gu with
      | nil => simp at hu
      | cons a l => rfl
    have hno : ¬ u > 90 := not_lt.mpr hle
    simp [Res.acquireDevice, Res.admissionCheck, Res.memoryCheck, hd, hgu,
      hne, hu, hno, hmem]
  · intro hd
    refine ⟨?_, ?_⟩
    · simp [Res.admissionCheck, hd]
    · intro g
      simp [Res.acquireDevice, Res.admissionCheck, hd]

/-- Witness for C4 (amended) on a one-device configuration: utilization 95
is rejected whether or not the lock is free, memory 95 likewise, and the
no-snapshot state proceeds to the lock. -/
theorem acquire_admission_amended_witness :
    (Res.acquireDevice "gpu" [0] (some ⟨10, 10, some [95], none⟩) 0 false =
      .exhausted ("GPU " ++ toString 0 ++ " is overloaded")) ∧
    (Res.acquireDevice "gpu" [0] (some ⟨10, 95, some [50], none⟩) 0 false =
      .exhausted "System memory is exhausted") ∧
    (Res.acquireDevice "gpu" [1] (some ⟨10, 10, some [50, 50], none⟩) 0 true =
      .exhausted ("Device " ++ toString 0 ++ " not available")) ∧
    Res.admissionCheck "gpu" [0] none 0 = .proceed :=
  ⟨((acquire_admission_amended [0] 0 ⟨10, 10, some [95], none⟩ [95] 95).2.1
      (by decide) rfl rfl (by norm_num)) false,
   ((acquire_admission_amended [0] 0 ⟨10, 95, some [50], none⟩ [50] 50).2.2.1
      (by decide) rfl rfl (by norm_num) (by norm_num)) false,
   ((acquire_admission_amended [1] 0 ⟨10, 10, some [50, 50], none⟩ [50, 50]
      50).1 (by decide)) true,
   ((acquire_admission_amended [0] 0 ⟨10, 10, none, none⟩ [] 0).2.2.2
      (by decide)).1⟩

/-- Erasing a list member removes exactly one occurrence from the `countP`
tally when the predicate holds of it, and none otherwise. -/
theorem countP_erase_of_mem {α : Type} [BEq α] [LawfulBEq α] (p : α → Bool)
    (a : α) : ∀ l : List α, a ∈ l →
      (l.erase a).countP p + (if p a then 1 else 0) = l.countP p := by
  intro l hl
  induction l with
  | nil => cases hl
  | cons b l ih =>
    rw [List.erase_cons]
    by_cases hba : (b == a) = true
    · have hb : b = a := eq_of_beq hba
      subst hb
      rw [if_pos hba, List.countP_cons]
    · rw [if_neg hba]
      have hal : a ∈ l := by
        rcases List.mem_cons.mp hl with h | h
        · exact absurd (by rw [h]; exact beq_self_eq_true b) hba
        · exact h
      rw [List.countP_cons, List.countP_cons, ← ih hal]
      omega

/-- Specialization of `countP_erase_of_mem` when the predicate holds of the
erased element. -/
theorem countP_erase_true {α : Type} [BEq α] [LawfulBEq α] (p : α → Bool) (a : α)
    (l : List α) (hl : a ∈ l) (hpa : p a = true) :
    (l.erase a).countP p + 1 = l.countP p := by
  have h := countP_erase_of_mem p a l hl
  rw [hpa] at h
  simpa using h

/-- Specialization of `countP_erase_of_mem` when the predicate fails of the
erased element. -/
theorem countP_erase_false {α : Type} [BEq α] [LawfulBEq α] (p : α → Bool) (a : α)
    (l : List α) (hl : a ∈ l) (hpa : p a = false) :
    (l.erase a).countP p = l.countP p := by
  have h := countP_erase_of_mem p a l hl
  rw [hpa] at h
  simpa using h

/-- The initial lock state satisfies the safety invariant. -/
theorem lockInv_init (known : List Nat) : LockInv (Res.initSys known) := by
  intro d
  constructor <;> simp [Res.holderCount, Res.initSys]

/-- Every step of the acquire/release relation preserves the safety
invariant. -/
theorem lockInv_step {s s' : Res.LockSys} {l : Res.LockLabel}
    (hinv : LockInv s) (hstep : Res.LockStep s l s') : LockInv s' := by
  cases hstep with
  | acq c d cfgType stats hadm hfree =>
    intro d'
    by_cases hdd : d' = d
    · subst hdd
      have h0 : Res.holderCount s d' = 0 := (hinv d').2 hfree
      have hc : Res.holderCount
          (⟨s.known, fun x => if x = d' then true else s.locked x,
            (c, d') :: s.holders⟩ : Res.LockSys) d' =
          Res.holderCount s d' + 1 := by
        simp [Res.holderCount, List.countP_cons]
      constructor
      · rw [hc, h0]
      · intro hl
        simp at hl
    · have hcount : Res.holderCount
          (⟨s.known, fun x => if x = d then true else s.locked x,
            (c, d) :: s.holders⟩ : Res.LockSys) d' =
          Res.holderCount s d' := by
        simp [Res.holderCount, List.countP_cons, Ne.symm hdd]
      constructor
      · rw [hcount]; exact (hinv d').1
      · intro hl
        rw [hcount]
        refine (hinv d').2 ?_
        simpa [hdd] using hl
  | rel c d hmem =>
    intro d'
    by_cases hdd : d' = d
    · subst hdd
      have herase := countP_erase_true (fun p => p.2 == d') (c, d') s.holders
        hmem (by simp)
      have hpos : 0 < Res.holderCount s d' :=
        List.countP_pos_iff.mpr ⟨(c, d'), hmem, by simp⟩
      have hle := (hinv d').1
      have hc : Res.holderCount
          (⟨s.known, fun x => if x = d' then false else s.locked x,
            s.holders.erase (c, d')⟩ : Res.LockSys) d' =
          (s.holders.erase (c, d')).countP (fun p => p.2 == d') := rfl
      have hs : Res.holderCount s d' =
          s.holders.countP (fun p => p.2 == d') := rfl
      rw [hs] at hpos hle
      constructor
      · rw [hc]; omega
      · intro _
        rw [hc]; omega
    · have herase := countP_erase_false (fun p => p.2 == d') (c, d) s.holders
        hmem (by show (d == d') = false; simp only [beq_eq_false_iff_ne, ne_eq]; omega)
      have hc : Res.holderCount
          (⟨s.known, fun x => if x = d then false else s.locked x,
            s.holders.erase (c, d)⟩ : Res.LockSys) d' =
          (s.holders.erase (c, d)).countP (fun p => p.2 == d') := rfl
      have hs : Res.holderCount s d' =
          s.holders.countP (fun p => p.2 == d') := rfl
      constructor
      · rw [hc, herase, ← hs]; exact (hinv d').1
      · intro hl
        rw [hc, herase, ← hs]
        refine (hinv d').2 ?_
        simpa [hdd] using hl

/-- The safety invariant holds in every reachable state. -/
theorem lockInv_reachable {init s : Res.LockSys} (h0 : LockInv init)
    (h : Res.ReachableFrom init s) : LockInv s := by
  induction h with
  | refl => exact h0
  | step _ hstep ih => exact lockInv_step ih hstep

/-- C5: in every state reachable by the acquire/release step relation from
the initial state, each device has at most one holder, and while a grant on
a device is outstanding no further acquire of that device can step — a
second acquire cannot succeed until the holder releases. -/
theorem device_mutual_exclusion (known : List Nat) (s : Res.LockSys)
    (h : Res.ReachableFrom (Res.initSys known) s) (d : Nat) :
    Res.holderCount s d ≤ 1 ∧
    ∀ c, (c, d) ∈ s.holders →
      Res.holderCount s d = 1 ∧
      ∀ c' s', ¬ Res.LockStep s (.acq c' d) s' := by
  have hinv := lockInv_reachable (lockInv_init known) h
  refine ⟨(hinv d).1, ?_⟩
  intro c hc
  have hpos : 0 < Res.holderCount s d :=
    List.countP_pos_iff.mpr ⟨(c, d), hc, by simp⟩
  have hone : Res.holderCount s d = 1 := by
    have := (hinv d).1
    omega
  refine ⟨hone, ?_⟩
  intro c' s' hstep
  have hlocked : s.locked d = true := by
    by_contra hfalse
    have := (hinv d).2 (by simpa using hfalse)
    omega
  cases hstep with
  | acq _ _ _ _ _ hfree => rw [hlocked] at hfree; cases hfree

/-- Witness for C5 at the state reached by one successful acquire of device
`0` by caller `7`. -/
theorem device_mutual_exclusion_witness :
    Res.holderCount heldSys 0 ≤ 1 ∧
    ∀ c, (c, 0) ∈ heldSys.holders →
      Res.holderCount heldSys 0 = 1 ∧
      ∀ c' s', ¬ Res.LockStep heldSys (.acq c' 0) s' :=
  device_mutual_exclusion [0] heldSys
    (Res.ReachableFrom.step Res.ReachableFrom.refl
      (Res.LockStep.acq (Res.initSys [0]) 7 0 "gpu" none (by decide) rfl))
    0

end Boltz